import Mathlib

/-!
# micro-CRM: verification of the authentication / ownership-enforcement core

Shallow embedding of the Go sources of the micro-CRM repository.  The parts
embedded here are the ones the frozen claims are about:

* `internal/utils/common.go` — `ValidateOwnership` (Ownership Guard);
* `internal/utils/jwt.go` — `SetJWTSecret` / `GenerateJWT` / `ParseJWT`
  (Token Issuer/Verifier, built on `github.com/golang-jwt/jwt/v5`);
* `internal/middleware/middleware.go` — `AuthMiddleware`;
* `internal/handlers/auth_handlers.go` (newer snapshot) — `LoginUser`;
* `internal/handlers/oidc.go` — `FindOrCreateUserByEmail`,
  `OIDCCallbackHandler`, `OIDCLogoutHandler`;
* `internal/handlers/profile_handlers.go` — `BuntDBTokenStore.SaveIDToken` /
  `GetIDToken` (Ephemeral Token Store, built on `tidwall/buntdb`).

Modelling conventions:

* The SQL database is modelled as pure data (lists of rows); the queries the
  code issues are translated to the corresponding pure lookups / inserts.
  Driver-level I/O errors are not modelled.
* JWTs: the real pipeline is JSON + base64url + HMAC-SHA256.  The embedding
  keeps the exact three-segment `<alg>.<payload>.<sig>` structure and the
  exact check order of golang-jwt v5 (structure → signing method → signature
  → expiry → user_id extraction), but replaces base64(JSON) by a concrete
  injective decimal serialization of the claims `{user_id, exp, iat}` and
  takes the MAC as an arbitrary function parameter `mac : String → String →
  Nat` (the theorems hold for every MAC, in particular for HMAC-SHA256).
  JSON numbers are modelled as exact integers.
* Time is modelled as integer Unix seconds for the JWT layer and integer
  nanoseconds for the token store (matching Go's `time.Duration`).
* `net/http` response writers follow Go semantics: the first write commits
  the status code; later `WriteHeader`/header changes are ineffective.  A
  handler run is the list of write events it performs, and `effectiveStatus`
  / `effectiveRedirectTarget` compute what the client observes.
-/

/-! ## Decimal serialization of numbers (stands in for the JSON/base64 layers) -/

/-- The character for a single decimal digit `d < 10` (code point `48 + d`). -/
def digitChar (d : Nat) : Char := Char.ofNat (48 + d)

/-- Decode a single decimal digit character. -/
def decDigit (c : Char) : Option Nat :=
  if 48 ≤ c.toNat ∧ c.toNat ≤ 57 then some (c.toNat - 48) else none

/-- Big-endian decimal digits of `n`; `fuel` bounds the recursion depth and
any `fuel > n` gives the true digit list. -/
def natChars : Nat → Nat → List Char
  | 0, _ => []
  | fuel + 1, n =>
    if n < 10 then [digitChar n]
    else natChars fuel (n / 10) ++ [digitChar (n % 10)]

/-- Decimal representation of a natural number, as characters. -/
def encNat (n : Nat) : List Char := natChars (n + 1) n

/-- Fold decimal digit characters onto an accumulator; `none` on any
non-digit character. -/
def decNatAux : List Char → Nat → Option Nat
  | [], acc => some acc
  | c :: cs, acc =>
    match decDigit c with
    | some d => decNatAux cs (acc * 10 + d)
    | none => none

/-- Decode a nonempty all-digit character list as a natural number. -/
def decNat : List Char → Option Nat
  | [] => none
  | c :: cs => decNatAux (c :: cs) 0

/-- Decimal representation of an integer (leading `-` when negative). -/
def encInt (i : Int) : List Char :=
  if i < 0 then '-' :: encNat (-i).toNat else encNat i.toNat

/-- Decode an optionally `-`-prefixed decimal integer. -/
def decInt : List Char → Option Int
  | [] => none
  | c :: cs =>
    if c = '-' then (decNat cs).map (fun n => -(n : Int))
    else (decNat (c :: cs)).map (fun n => (n : Int))

/-! ## Separator splitting (stands in for segment/field splitting) -/

/-- Split a character list on a separator character, keeping empty pieces
(the behaviour of Go's `strings.Split` at the character level). -/
def splitOnChar (sep : Char) : List Char → List (List Char)
  | [] => [[]]
  | c :: cs =>
    if c = sep then [] :: splitOnChar sep cs
    else
      match splitOnChar sep cs with
      | [] => [[c]]
      | p :: ps => (c :: p) :: ps

/-! ## Token Issuer/Verifier — `internal/utils/jwt.go`

`GenerateJWT` builds claims `{user_id, exp = now+24h, iat = now}` and signs
them with `jwt.SigningMethodHS256`; `ParseJWT` parses, checks the signing
method is the HMAC family, verifies the signature, validates the claims and
extracts `user_id`.  Check order is the one of golang-jwt v5 `Parser.Parse`:
token structure / claims decoding (`ErrTokenMalformed`), then the keyfunc's
signing-method check, then signature verification (`ErrTokenSignatureInvalid`),
then claims validation (`exp` → `ErrTokenInvalidClaims`/expired), and only
then `jwt.go`'s own `user_id` extraction.  In this serialization the payload
always carries `user_id`, so the "user ID not found in token claims" branch
of `ParseJWT` is unreachable and has no model counterpart.  The empty-secret
guard (`jwtSecret` unset, `SetJWTSecret` never called) is the leading check
in both functions, as in the source. -/

structure JWTClaims where
  user_id : Int
  exp : Int
  iat : Int
deriving DecidableEq

inductive JWTError where
  | secretNotSet
  | malformed
  | unexpectedSigningMethod
  | signatureInvalid
  | expired
deriving DecidableEq

/-- The `alg` segment produced by `jwt.SigningMethodHS256`. -/
def hs256 : List Char := ['H', 'S', '2', '5', '6']

/-- Serialized claims payload (stands in for base64url(JSON claims)). -/
def encClaims (c : JWTClaims) : List Char :=
  encInt c.user_id ++ (',' :: (encInt c.exp ++ (',' :: encInt c.iat)))

/-- Decode a serialized claims payload. -/
def decClaims (l : List Char) : Option JWTClaims :=
  match splitOnChar ',' l with
  | [a, b, c] =>
    match decInt a, decInt b, decInt c with
    | some u, some e, some i => some ⟨u, e, i⟩
    | _, _, _ => none
  | _ => none

/-- The signed text `<alg>.<payload>` (what the HMAC is computed over). -/
def signingInput (alg payload : List Char) : String := ⟨alg ++ ('.' :: payload)⟩

/-- A complete token string `<alg>.<payload>.<sig>`. -/
def mkTokenString (alg payload : List Char) (sig : Nat) : String :=
  ⟨alg ++ ('.' :: (payload ++ ('.' :: encNat sig)))⟩

/-- Model of `GenerateJWT` from `internal/utils/jwt.go`.  `mac` abstracts
HMAC-SHA256; `now` is Unix seconds. -/
def GenerateJWT (mac : String → String → Nat) (secret : String) (now : Int)
    (userID : Int) : Except JWTError String :=
  if secret = "" then .error .secretNotSet
  else
    let payload := encClaims { user_id := userID, exp := now + 86400, iat := now }
    .ok (mkTokenString hs256 payload (mac secret (signingInput hs256 payload)))

/-- Model of `ParseJWT` from `internal/utils/jwt.go` (via `jwt.Parse` of golang-jwt
v5, with the keyfunc that requires the HMAC signing method). -/
def ParseJWT (mac : String → String → Nat) (secret : String) (now : Int)
    (tokenString : String) : Except JWTError Int :=
  if secret = "" then .error .secretNotSet
  else
    match splitOnChar '.' tokenString.data with
    | [alg, payload, sigPart] =>
      match decClaims payload with
      | none => .error .malformed
      | some claims =>
        if alg = hs256 then
          match decNat sigPart with
          | none => .error .malformed
          | some sig =>
            if sig = mac secret (signingInput alg payload) then
              if claims.exp < now then .error .expired
              else .ok claims.user_id
            else .error .signatureInvalid
        else .error .unexpectedSigningMethod
    | _ => .error .malformed

/-- A concrete stand-in MAC used to instantiate witnesses. -/
def polyMac (secret msg : String) : Nat :=
  ((secret ++ "|" ++ msg).data.foldl (fun a c => a * 131 + c.toNat) 7) % 1000003

instance {ε α : Type} [DecidableEq ε] [DecidableEq α] : DecidableEq (Except ε α) := fun x y =>
  match x, y with
  | .ok a, .ok b =>
    if h : a = b then .isTrue (by rw [h]) else .isFalse (fun hc => h (Except.ok.inj hc))
  | .error a, .error b =>
    if h : a = b then .isTrue (by rw [h]) else .isFalse (fun hc => h (Except.error.inj hc))
  | .ok _, .error _ => .isFalse (fun hc => Except.noConfusion hc)
  | .error _, .ok _ => .isFalse (fun hc => Except.noConfusion hc)

/-! ## Request context — `context.WithValue` / `Context.Value`

Go compares context keys by interface equality: a plain `string` key and a
`models.ContextKey` key never compare equal even when the underlying string
is the same, because the dynamic types differ.  `CtxKey` carries the dynamic
type as a constructor. -/

inductive CtxKey where
  | goString (s : String)
  | modelsContextKey (s : String)
deriving DecidableEq

/-- A request context: the chain of `context.WithValue` bindings (all values
stored by this program are `int` user ids). -/
abbrev ReqContext := List (CtxKey × Int)

/-- Lookup `ctx.Value(k)`, with failed `int` type assertions folded into `none`. -/
def ctxValue (ctx : ReqContext) (k : CtxKey) : Option Int :=
  match ctx with
  | [] => none
  | (k2, v) :: rest => if k2 = k then some v else ctxValue rest k

/-- Key `models.UserIDContextKey = ContextKey("userID")` (internal/models). -/
def UserIDContextKey : CtxKey := CtxKey.modelsContextKey "userID"

/-! ## Auth Middleware — `internal/middleware/middleware.go` -/

/-- Observable outcome of the middleware for one request: an error response,
or invocation of the downstream handler with the enriched request context. -/
inductive MWOutcome where
  | respond (status : Nat) (errMsg : String)
  | forward (ctx : ReqContext)
deriving DecidableEq

/-- Model of `strings.Replace(s, old, new, 1)` with `new = ""` and nonempty `old`:
remove the first occurrence of `old`, character-level. -/
def replaceFirstChars (pat : List Char) : List Char → List Char
  | [] => []
  | c :: cs =>
    if pat.isPrefixOf (c :: cs) then (c :: cs).drop pat.length
    else c :: replaceFirstChars pat cs

/-- Model of `strings.Replace(s, old, "", 1)` on strings. -/
def replaceFirst (s old : String) : String := ⟨replaceFirstChars old.data s.data⟩

/-- Model of `AuthMiddleware` from `internal/middleware/middleware.go`, parameterized
by the verifier `parse` (the source calls `utils.ParseJWT`). -/
def AuthMiddleware (parse : String → Except JWTError Int) (authHeader : String) :
    MWOutcome :=
  if authHeader = "" then .respond 401 "Authorization header required"
  else if replaceFirst authHeader "Bearer " = authHeader then
    .respond 401 "Bearer token required"
  else
    match parse (replaceFirst authHeader "Bearer ") with
    | .error _ => .respond 401 "Invalid or expired token"
    | .ok userID => .forward [(UserIDContextKey, userID)]

/-! ## Ownership Guard — `internal/utils/common.go` -/

/-- A resource table: `(row id, owner user id)` pairs. -/
abbrev OwnedRows := List (Int × Int)

/-- The two allow-listed tables as relational state. -/
structure GuardDB where
  contacts : OwnedRows
  companies : OwnedRows
deriving DecidableEq

/-- Rows of the named table (only reachable for allow-listed names). -/
def tableRows (db : GuardDB) (table : String) : OwnedRows :=
  if table = "contacts" then db.contacts
  else if table = "companies" then db.companies
  else []

/-- Model of `ValidateOwnership` from `internal/utils/common.go`: allow-list check,
then `SELECT EXISTS(SELECT 1 FROM <table> WHERE id = ? AND user_id = ?)`. -/
def ValidateOwnership (db : GuardDB) (table : String) (id userID : Int) :
    Except String Unit :=
  if table = "contacts" ∨ table = "companies" then
    let rowExists := (tableRows db table).any (fun r => r.1 == id && r.2 == userID)
    if rowExists then Except.ok ()
    else Except.error (table ++ " not found or does not belong to the user")
  else Except.error "invalid table for ownership check"

/-! ## Users, HTTP write events — `internal/models`, `internal/utils/response.go`

`User` is the `models.User` the newer handler snapshot compiles against
(the handlers read `Role`, `PhoneNumber`, `Status`).  A handler run is its
list of write events; per net/http, the first event commits the status code
and later writes cannot change it. -/

structure User where
  id : Int
  username : String
  email : String
  passwordHash : String
  role : String
  phoneNumber : String
  firstName : String
  lastName : String
  status : String
  createdAt : String
  updatedAt : String
deriving DecidableEq

/-- The `interface{}` payloads passed to `utils.RespondJSON` by the embedded
handlers, as a closed sum. -/
inductive JsonPayload where
  | str (s : String)
  | loginResponse (message token : String) (user : User)
  | messageOnly (message : String)
deriving DecidableEq

/-- One write to the `http.ResponseWriter`. -/
inductive WriteEvent where
  | respondError (status : Nat) (errMsg : String)
  | respondJSON (status : Nat) (payload : JsonPayload)
  | redirect (url : String) (status : Nat)
deriving DecidableEq

def eventStatus : WriteEvent → Nat
  | .respondError s _ => s
  | .respondJSON s _ => s
  | .redirect _ s => s

/-- The status code the client observes: the first `WriteHeader` wins. -/
def effectiveStatus : List WriteEvent → Option Nat
  | [] => none
  | e :: _ => some (eventStatus e)

/-- The redirect target the client observes: a `Location` header is only
sent when the redirect is the first write (net/http drops header changes
made after the status was committed). -/
def effectiveRedirectTarget : List WriteEvent → Option String
  | WriteEvent.redirect url _ :: _ => some url
  | _ => none

/-- The `users` table plus the auto-increment counter (`LastInsertId`). -/
structure UsersDB where
  rows : List User
  nextId : Int
deriving DecidableEq

/-! ## `LoginUser` — `internal/handlers/auth_handlers.go` (newer snapshot) -/

structure UserLoginPayload where
  username : String
  password : String
deriving DecidableEq

/-- The user scanned by `LoginUser`'s query
`SELECT id,first_name,last_name,username,email,role,phone_number,created_at,password_hash`:
`status` and `updated_at` are NOT in the column list, so those fields keep
Go's zero value `""` after `Scan`. -/
def scanLoginRow (row : User) : User :=
  { id := row.id, firstName := row.firstName, lastName := row.lastName,
    username := row.username, email := row.email, role := row.role,
    phoneNumber := row.phoneNumber, createdAt := row.createdAt,
    passwordHash := row.passwordHash, status := "", updatedAt := "" }

/-- Model of `LoginUser`: username lookup, inactive-status check, bcrypt comparison
(`pwMatches hash plain`, abstracting `bcrypt.CompareHashAndPassword`), JWT
issuance, success response.  Body-decoding and DB-error branches are not
modelled. -/
def LoginUser (db : UsersDB) (pwMatches : String → String → Bool)
    (mac : String → String → Nat) (secret : String) (now : Int)
    (payload : UserLoginPayload) : List WriteEvent :=
  match db.rows.find? (fun r => r.username == payload.username) with
  | none => [.respondError 401 "Invalid username or password"]
  | some row =>
    let user := scanLoginRow row
    if user.status == "inactive" then
      [.respondJSON 401
        (.messageOnly "User is inactive, Contact administrator to configure your user")]
    else if pwMatches user.passwordHash payload.password then
      match GenerateJWT mac secret now user.id with
      | .error _ => [.respondError 500 "Failed to generate authentication token"]
      | .ok token => [.respondJSON 200 (.loginResponse "Login successful" token user)]
    else [.respondError 401 "Invalid username or password"]

/-- A concrete `users` row whose stored status is `inactive`. -/
def c2InactiveRow : User :=
  { id := 1, username := "alice", email := "alice@example.com",
    passwordHash := "HASH", role := "admin", phoneNumber := "none",
    firstName := "A", lastName := "L", status := "inactive",
    createdAt := "t0", updatedAt := "t0" }

/-! ## `SplitName` (`internal/utils/common.go`) and federated provisioning
(`FindOrCreateUserByEmail`, `internal/handlers/oidc.go`) -/

/-- Model of `strings.Fields`: split on whitespace runs, dropping empty pieces. -/
def fieldsAux : List Char → List Char → List String
  | [], acc => if acc = [] then [] else [⟨acc.reverse⟩]
  | c :: cs, acc =>
    if c.isWhitespace then
      if acc = [] then fieldsAux cs []
      else (⟨acc.reverse⟩ : String) :: fieldsAux cs []
    else fieldsAux cs (c :: acc)

def goFields (s : String) : List String := fieldsAux s.data []

/-- Model of `SplitName` from `internal/utils/common.go`: first field is the first
name, the remaining fields joined by single spaces are the last name. -/
def SplitName (full : String) : String × String :=
  match goFields full with
  | [] => ("", "")
  | first :: rest => (first, String.intercalate " " rest)

/-- Model of `strings.Split(email, "@")[0]`: the part before the first `@` (the
whole string when there is no `@`). -/
def emailLocalPart (email : String) : String :=
  ⟨email.data.takeWhile (fun c => ¬(c = '@'))⟩

/-- The user row INSERTed (and returned from `LastInsertId`) on the
not-found path of `FindOrCreateUserByEmail`. -/
def provisionedUser (db : UsersDB) (email fullName nowStr : String) : User :=
  { id := db.nextId, username := emailLocalPart email, email := email,
    passwordHash := "oidc_login_placeholder", role := "employee",
    phoneNumber := "none", firstName := (SplitName fullName).1,
    lastName := (SplitName fullName).2, status := "active",
    createdAt := nowStr, updatedAt := nowStr }

/-- Model of `FindOrCreateUserByEmail` from `internal/handlers/oidc.go`:
`SELECT * FROM users WHERE email = ? LIMIT 1`; on `sql.ErrNoRows`, INSERT
with username = email local part, placeholder credential, role `employee`,
phone `none`, status `active`, and return the user built from
`LastInsertId`.  On a found row the scanned user is returned with
`PasswordHash` scrubbed to `""` (the `SELECT *` column order is assumed to
line up with the `Scan` target list; only the `id` field matters to the
claims settled against this model). -/
def FindOrCreateUserByEmail (db : UsersDB) (email fullName nowStr : String) :
    UsersDB × Except String User :=
  match db.rows.find? (fun r => r.email == email) with
  | some row => (db, Except.ok { row with passwordHash := "" })
  | none =>
    ({ rows := db.rows ++ [provisionedUser db email fullName nowStr],
       nextId := db.nextId + 1 },
      Except.ok (provisionedUser db email fullName nowStr))

/-! ## Ephemeral Token Store — `BuntDBTokenStore`
(`internal/handlers/profile_handlers.go`, backed by `tidwall/buntdb`)

`SaveIDToken` computes `ttl := time.Until(expiresAt).Round(time.Second)` and
stores the token with that TTL; buntdb keeps an absolute expiry instant and
treats an entry as missing once that instant is strictly in the past.
Times are integer nanoseconds. -/

/-- Store entries keyed by user id: `(user id, token, absolute expiry ns)`. -/
structure TokenStoreState where
  entries : List (Int × String × Int)
deriving DecidableEq

def storeLookup : List (Int × String × Int) → Int → Option (String × Int)
  | [], _ => none
  | (k, tok, exat) :: rest, u =>
    if k = u then some (tok, exat) else storeLookup rest u

def storeUpsert : List (Int × String × Int) → Int → String → Int →
    List (Int × String × Int)
  | [], u, tok, exat => [(u, tok, exat)]
  | (k, t0, e0) :: rest, u, tok, exat =>
    if k = u then (u, tok, exat) :: rest
    else (k, t0, e0) :: storeUpsert rest u tok exat

/-- Go `Duration.Round(time.Second)`: nearest second, ties away from zero. -/
def roundToSecond (d : Int) : Int :=
  if 0 ≤ d then ((d + 500000000) / 1000000000) * 1000000000
  else -(((-d + 500000000) / 1000000000) * 1000000000)

/-- Model of `SaveIDToken`: upsert with absolute expiry `now + Round(expiresAt − now)`. -/
def SaveIDToken (st : TokenStoreState) (userID : Int) (token : String)
    (expiresAtNs nowNs : Int) : TokenStoreState :=
  ⟨storeUpsert st.entries userID token
    (nowNs + roundToSecond (expiresAtNs - nowNs))⟩

/-- Model of `GetIDToken`: `tx.Get`, with entries whose expiry instant lies strictly
in the past behaving as absent; the buntdb `not found` error is wrapped as
`token not found: %w`. -/
def GetIDToken (st : TokenStoreState) (userID : Int) (nowNs : Int) :
    Except String String :=
  match storeLookup st.entries userID with
  | none => Except.error "token not found: not found"
  | some (tok, exat) =>
    if exat < nowNs then Except.error "token not found: not found"
    else Except.ok tok

/-! ## OIDC flow — `internal/handlers/oidc.go` -/

/-- The token returned by `oidc.OauthConfig.Exchange`: presence of the
`id_token` extra field and the token expiry instant (ns). -/
structure OAuthToken where
  idTokenExtra : Option String
  expiryNs : Int
deriving DecidableEq

/-- The claims extracted from a verified ID token. -/
structure OIDCClaims where
  email : String
  name : String
deriving DecidableEq

/-- External collaborators and ambient state used by the OIDC callback:
provider exchange and verification, the users DB, JWT signing state, the
ephemeral-token-store write (which can fail at the I/O layer), JSON
marshalling and URL escaping. -/
structure OIDCEnv where
  exchange : String → Except String OAuthToken
  verifyIDToken : String → Except String Unit
  claimsOf : String → Except String OIDCClaims
  db : UsersDB
  mac : String → String → Nat
  secret : String
  nowSec : Int
  nowStr : String
  saveIDToken : Int → String → Int → Except String Unit
  marshalUser : User → String
  queryEscape : String → String

/-- An inbound HTTP request as the callback handler sees it: its URL query
parameters (`r.URL.Query().Get`). -/
structure HttpRequest where
  query : String → String

/-- Rendering of `err.Error()` for the embedded JWT errors. -/
def jwtErrorMessage : JWTError → String
  | .secretNotSet => "JWT secret not set"
  | .malformed => "failed to parse token: token is malformed"
  | .unexpectedSigningMethod => "failed to parse token: unexpected signing method"
  | .signatureInvalid => "failed to parse token: token signature is invalid"
  | .expired => "failed to parse token: token has invalid claims: token is expired"

/-- Model of `OIDCCallbackHandler` from `internal/handlers/oidc.go`.  Note the
store-write failure branch calls `utils.RespondError` but does NOT return;
execution continues to the marshal and redirect. -/
def OIDCCallbackHandler (env : OIDCEnv) (req : HttpRequest) : List WriteEvent :=
  match env.exchange (req.query "code") with
  | .error e => [.respondError 500 ("Failed to exchange token: " ++ e)]
  | .ok token =>
    match token.idTokenExtra with
    | none => [.respondError 500 "No id_token field in token"]
    | some rawIDToken =>
      match env.verifyIDToken rawIDToken with
      | .error e => [.respondJSON 500 (.str ("Failed to verify ID Token: " ++ e))]
      | .ok _ =>
        match env.claimsOf rawIDToken with
        | .error e => [.respondError 500 ("Failed to parse claims: " ++ e)]
        | .ok claims =>
          match (FindOrCreateUserByEmail env.db claims.email claims.name env.nowStr).2 with
          | .error e => [.respondError 500 ("User creation failed: " ++ e)]
          | .ok user =>
            match GenerateJWT env.mac env.secret env.nowSec user.id with
            | .error e =>
              [.respondError 500 ("JWT generation failed: " ++ jwtErrorMessage e)]
            | .ok jwtToken =>
              (match env.saveIDToken user.id rawIDToken token.expiryNs with
               | .error e =>
                 [.respondError 500 ("Failed to save ID Token to token storage: " ++ e)]
               | .ok _ => []) ++
              [.redirect ("http://localhost:5173/oidc/callback?token=" ++ jwtToken ++
                "&user=" ++ env.queryEscape (env.marshalUser user)) 302]

/-- Environment for the C7 run: provider steps succeed, the ephemeral-token
store write fails. -/
def c7Env : OIDCEnv :=
  { exchange := fun _ => Except.ok ⟨some "rawIDtok", 999⟩,
    verifyIDToken := fun _ => Except.ok (),
    claimsOf := fun _ => Except.ok ⟨"bob@example.com", "Bob Jones"⟩,
    db := ⟨[], 1⟩,
    mac := polyMac, secret := "k", nowSec := 0, nowStr := "t0",
    saveIDToken := fun _ _ _ => Except.error "disk full",
    marshalUser := fun u => u.username,
    queryEscape := fun s => s }

/-- Model of `OIDCLogoutHandler` from `internal/handlers/oidc.go`: reads the user id
from the request context under the PLAIN STRING key `"userID"`
(`r.Context().Value("userID").(int)`), then reads the stored ID token and
redirects to the provider end-session URL.  The second component records
which user ids the token store was consulted for. -/
def OIDCLogoutHandler (ctx : ReqContext) (store : TokenStoreState) (nowNs : Int)
    (logoutURI webBase : String) (queryEscape : String → String) :
    List WriteEvent × List Int :=
  match ctxValue ctx (CtxKey.goString "userID") with
  | none => ([.respondError 500 "Failed to fetch user ID from context"], [])
  | some userID =>
    match GetIDToken store userID nowNs with
    | .error e =>
      ([.respondError 500 ("Failed to fetch ID Token from token storage: " ++ e)],
        [userID])
    | .ok token =>
      ([.redirect (logoutURI ++ "?id_token_hint=" ++ token ++
          "&post_logout_redirect_uri=" ++ queryEscape (webBase ++ "/login")) 302],
        [userID])

/-! ## Theorems -/
theorem decNatAux_append (l1 l2 : List Char) (acc : Nat) :
    decNatAux (l1 ++ l2) acc =
      match decNatAux l1 acc with
      | some m => decNatAux l2 m
      | none => none := by
  induction l1 generalizing acc with
  | nil => simp [decNatAux]
  | cons c cs ih =>
    simp only [List.cons_append, decNatAux]
    cases decDigit c with
    | none => simp
    | some d => simp [ih]

theorem digitChar_toNat (d : Nat) (h : d < 10) : (digitChar d).toNat = 48 + d := by
  interval_cases d <;> decide

theorem decDigit_digitChar (d : Nat) (h : d < 10) :
    decDigit (digitChar d) = some d := by
  interval_cases d <;> decide

theorem decNatAux_natChars (fuel : Nat) :
    ∀ n, n < fuel → decNatAux (natChars fuel n) 0 = some n := by
  induction fuel with
  | zero => intro n h; omega
  | succ f ih =>
    intro n h
    simp only [natChars]
    by_cases hn : n < 10
    · simp [hn, decNatAux, decDigit_digitChar n hn]
    · simp only [if_neg hn]
      rw [decNatAux_append]
      have hd : n / 10 < n := Nat.div_lt_self (by omega) (by omega)
      rw [ih (n / 10) (by omega)]
      have hm : n % 10 < 10 := Nat.mod_lt _ (by omega)
      simp [decNatAux, decDigit_digitChar (n % 10) hm]
      omega

theorem natChars_ne_nil (fuel n : Nat) (h : n < fuel) :
    natChars fuel n ≠ [] := by
  cases fuel with
  | zero => omega
  | succ f =>
    simp only [natChars]
    by_cases hn : n < 10 <;> simp [hn]

theorem decNat_encNat (n : Nat) : decNat (encNat n) = some n := by
  have h := decNatAux_natChars (n + 1) n (by omega)
  have hne := natChars_ne_nil (n + 1) n (by omega)
  unfold encNat decNat
  cases hc : natChars (n + 1) n with
  | nil => exact absurd hc hne
  | cons c cs =>
    rw [hc] at h
    exact h

/-- Every character produced by `natChars` is a decimal digit. -/
theorem natChars_digits (fuel : Nat) :
    ∀ n c, c ∈ natChars fuel n → 48 ≤ c.toNat ∧ c.toNat ≤ 57 := by
  induction fuel with
  | zero => intro n c h; simp [natChars] at h
  | succ f ih =>
    intro n c h
    simp only [natChars] at h
    by_cases hn : n < 10
    · simp [hn] at h
      subst h
      rw [digitChar_toNat n hn]
      omega
    · simp [hn] at h
      rcases h with h | h
      · exact ih (n / 10) c h
      · subst h
        have hm : n % 10 < 10 := Nat.mod_lt _ (by omega)
        rw [digitChar_toNat (n % 10) hm]
        omega

theorem encNat_digits (n : Nat) (c : Char) (h : c ∈ encNat n) :
    48 ≤ c.toNat ∧ c.toNat ≤ 57 :=
  natChars_digits (n + 1) n c h

theorem decInt_encInt (i : Int) : decInt (encInt i) = some i := by
  unfold encInt
  by_cases h : i < 0
  · simp only [if_pos h]
    show decInt ('-' :: encNat (-i).toNat) = some i
    simp [decInt, decNat_encNat]
    omega
  · simp only [if_neg h]
    obtain ⟨c, cs, hc⟩ : ∃ c cs, encNat i.toNat = c :: cs := by
      cases hc : encNat i.toNat with
      | nil => exact absurd hc (natChars_ne_nil _ _ (by omega))
      | cons c cs => exact ⟨c, cs, rfl⟩
    have hcd : 48 ≤ c.toNat ∧ c.toNat ≤ 57 := by
      apply encNat_digits i.toNat
      rw [hc]
      exact List.mem_cons_self c cs
    have hcne : ¬(c = '-') := by
      intro heq
      rw [heq] at hcd
      revert hcd
      decide
    rw [hc]
    have hstep : decInt (c :: cs) =
        if c = '-' then (decNat cs).map (fun n => -(n : Int))
        else (decNat (c :: cs)).map (fun n => (n : Int)) := rfl
    rw [hstep, if_neg hcne, ← hc, decNat_encNat]
    simp [Int.toNat_of_nonneg (by omega : (0 : Int) ≤ i)]

theorem splitOnChar_ne_nil (sep : Char) (l : List Char) :
    splitOnChar sep l ≠ [] := by
  cases l with
  | nil => simp [splitOnChar]
  | cons c cs =>
    simp only [splitOnChar]
    by_cases h : c = sep
    · simp [h]
    · simp only [if_neg h]
      cases splitOnChar sep cs <;> simp

theorem splitOnChar_sep_free (sep : Char) (l : List Char) (h : sep ∉ l) :
    splitOnChar sep l = [l] := by
  induction l with
  | nil => rfl
  | cons c cs ih =>
    have h1 : ¬(c = sep) := by
      intro hc
      subst hc
      exact h (List.mem_cons_self c cs)
    have h2 : sep ∉ cs := fun hm => h (List.mem_cons_of_mem c hm)
    simp only [splitOnChar, if_neg h1, ih h2]

theorem splitOnChar_append (sep : Char) (l1 l2 : List Char) (h : sep ∉ l1) :
    splitOnChar sep (l1 ++ sep :: l2) = l1 :: splitOnChar sep l2 := by
  induction l1 with
  | nil => simp [splitOnChar]
  | cons c cs ih =>
    have h1 : ¬(c = sep) := by
      intro hc
      subst hc
      exact h (List.mem_cons_self c cs)
    have h2 : sep ∉ cs := fun hm => h (List.mem_cons_of_mem c hm)
    simp only [List.cons_append, splitOnChar, if_neg h1, List.append_eq, ih h2]

theorem encInt_chars (i : Int) (c : Char) (h : c ∈ encInt i) :
    c.toNat = 45 ∨ (48 ≤ c.toNat ∧ c.toNat ≤ 57) := by
  unfold encInt at h
  by_cases hi : i < 0
  · rw [if_pos hi] at h
    rcases List.mem_cons.mp h with h | h
    · left
      rw [h]
      rfl
    · right
      exact encNat_digits _ _ h
  · rw [if_neg hi] at h
    right
    exact encNat_digits _ _ h

theorem comma_not_mem_encInt (i : Int) : ',' ∉ encInt i := by
  intro h
  have h44 : (',' : Char).toNat = 44 := rfl
  rcases encInt_chars i _ h with h' | h' <;> omega

theorem dot_not_mem_encInt (i : Int) : '.' ∉ encInt i := by
  intro h
  have h46 : ('.' : Char).toNat = 46 := rfl
  rcases encInt_chars i _ h with h' | h' <;> omega

theorem dot_not_mem_encNat (n : Nat) : '.' ∉ encNat n := by
  intro h
  have h46 : ('.' : Char).toNat = 46 := rfl
  have := encNat_digits n _ h
  omega

theorem dot_not_mem_encClaims (cl : JWTClaims) : '.' ∉ encClaims cl := by
  intro h
  unfold encClaims at h
  have hcomma : ¬(('.' : Char) = ',') := by decide
  simp only [List.mem_append, List.mem_cons] at h
  rcases h with h | h | h | h | h
  · exact dot_not_mem_encInt _ h
  · exact hcomma h
  · exact dot_not_mem_encInt _ h
  · exact hcomma h
  · exact dot_not_mem_encInt _ h

theorem decClaims_encClaims (cl : JWTClaims) : decClaims (encClaims cl) = some cl := by
  unfold decClaims encClaims
  rw [splitOnChar_append ',' _ _ (comma_not_mem_encInt cl.user_id),
      splitOnChar_append ',' _ _ (comma_not_mem_encInt cl.exp),
      splitOnChar_sep_free ',' _ (comma_not_mem_encInt cl.iat)]
  simp [decInt_encInt]

theorem splitOnChar_token (alg payload : List Char) (sig : Nat)
    (halg : '.' ∉ alg) (hp : '.' ∉ payload) :
    splitOnChar '.' (mkTokenString alg payload sig).data = [alg, payload, encNat sig] := by
  show splitOnChar '.' (alg ++ ('.' :: (payload ++ ('.' :: encNat sig)))) = _
  rw [splitOnChar_append '.' _ _ halg, splitOnChar_append '.' _ _ hp,
      splitOnChar_sep_free '.' _ (dot_not_mem_encNat sig)]

theorem dot_not_mem_hs256 : '.' ∉ hs256 := by decide

theorem GenerateJWT_ok (mac : String → String → Nat) (secret : String)
    (now userID : Int) (h : ¬(secret = "")) :
    GenerateJWT mac secret now userID =
      Except.ok (mkTokenString hs256
        (encClaims { user_id := userID, exp := now + 86400, iat := now })
        (mac secret (signingInput hs256
          (encClaims { user_id := userID, exp := now + 86400, iat := now })))) := by
  unfold GenerateJWT
  rw [if_neg h]

theorem ParseJWT_mkTokenString (mac : String → String → Nat) (secret : String)
    (now : Int) (cl : JWTClaims) (sig : Nat) (h : ¬(secret = "")) :
    ParseJWT mac secret now (mkTokenString hs256 (encClaims cl) sig) =
      (if sig = mac secret (signingInput hs256 (encClaims cl)) then
        (if cl.exp < now then Except.error JWTError.expired else Except.ok cl.user_id)
      else Except.error JWTError.signatureInvalid) := by
  unfold ParseJWT
  rw [if_neg h,
    splitOnChar_token _ _ _ dot_not_mem_hs256 (dot_not_mem_encClaims cl)]
  dsimp only
  rw [decClaims_encClaims]
  dsimp only
  rw [if_pos rfl, decNat_encNat]

/-- C3: for every user id, with the signing secret configured, verifying a
token immediately after issuing it succeeds and returns the same integer
user id: `verify(issue(user_id)) == user_id`.  Stated for every MAC
function, every configured (nonempty) secret and every issuance time. -/
theorem C3_verify_issue_roundtrip (mac : String → String → Nat) (secret : String)
    (now userID : Int) (h : ¬(secret = "")) :
    (GenerateJWT mac secret now userID).bind (ParseJWT mac secret now) =
      Except.ok userID := by
  rw [GenerateJWT_ok mac secret now userID h]
  show ParseJWT mac secret now _ = _
  rw [ParseJWT_mkTokenString mac secret now _ _ h, if_pos rfl]
  dsimp only
  rw [if_neg (by omega : ¬(now + 86400 < now))]

theorem C3_verify_issue_roundtrip_witness :
    ¬(("k" : String) = "") ∧
      (GenerateJWT polyMac "k" 0 42).bind (ParseJWT polyMac "k" 0) = Except.ok 42 :=
  ⟨by decide, C3_verify_issue_roundtrip polyMac "k" 0 42 (by decide)⟩

/-- C5 (amended): for every well-formed token whose `exp` claim lies in the
past, verification fails and never returns a user id; the reported error is
`Expired` when the signature is valid, but golang-jwt v5 verifies the
signature before validating claims, so a token with an invalid signature
fails with the signature error instead of `Expired`. -/
theorem C5_expired_token_rejected (mac : String → String → Nat) (secret : String)
    (now : Int) (alg : List Char) (cl : JWTClaims) (sig : Nat)
    (hsec : ¬(secret = "")) (halg : '.' ∉ alg) (hexp : cl.exp < now) :
    (∀ uid : Int,
      ¬(ParseJWT mac secret now (mkTokenString alg (encClaims cl) sig) = Except.ok uid)) ∧
    (alg = hs256 → sig = mac secret (signingInput hs256 (encClaims cl)) →
      ParseJWT mac secret now (mkTokenString alg (encClaims cl) sig) =
        Except.error JWTError.expired) := by
  unfold ParseJWT
  rw [if_neg hsec, splitOnChar_token _ _ _ halg (dot_not_mem_encClaims cl)]
  dsimp only
  rw [decClaims_encClaims]
  dsimp only
  by_cases halg2 : alg = hs256
  · rw [if_pos halg2, decNat_encNat]
    dsimp only
    by_cases hsig : sig = mac secret (signingInput alg (encClaims cl))
    · rw [if_pos hsig, if_pos hexp]
      exact ⟨fun uid hc => Except.noConfusion hc, fun _ _ => rfl⟩
    · rw [if_neg hsig]
      refine ⟨fun uid hc => Except.noConfusion hc, fun h1 h2 => absurd ?_ hsig⟩
      rw [halg2]
      exact h2
  · rw [if_neg halg2]
    exact ⟨fun uid hc => Except.noConfusion hc, fun h1 _ => absurd h1 halg2⟩

theorem C5_expired_token_rejected_witness :
    ParseJWT polyMac "k" 100
        (mkTokenString hs256 (encClaims ⟨7, 0, 0⟩)
          (polyMac "k" (signingInput hs256 (encClaims ⟨7, 0, 0⟩)))) =
      Except.error JWTError.expired :=
  (C5_expired_token_rejected polyMac "k" 100 hs256 ⟨7, 0, 0⟩
    (polyMac "k" (signingInput hs256 (encClaims ⟨7, 0, 0⟩)))
    (by decide) (by decide) (by decide)).2 rfl rfl

/-- C5 counterexample to the claim as stated: a token whose `exp` (0) lies
in the past of `now` (100) but whose signature is invalid fails with the
signature error, not with `Expired`: the outcome is not independent of
signature validity. -/
theorem C5_counterexample :
    (0 : Int) < 100 ∧
    ParseJWT polyMac "k" 100
        (mkTokenString hs256 (encClaims ⟨7, 0, 0⟩)
          (polyMac "k" (signingInput hs256 (encClaims ⟨7, 0, 0⟩)) + 1)) =
      Except.error JWTError.signatureInvalid ∧
    ¬(ParseJWT polyMac "k" 100
        (mkTokenString hs256 (encClaims ⟨7, 0, 0⟩)
          (polyMac "k" (signingInput hs256 (encClaims ⟨7, 0, 0⟩)) + 1)) =
      Except.error JWTError.expired) := by
  decide

/-- C4 (amended): the middleware fails closed with 401 when the header is
missing, and with 401 (a different message, same behaviour) when the header
is present but contains no occurrence of `"Bearer "`; otherwise the first
occurrence of `"Bearer "` is removed and the remainder is verified — 401 on
any verification error, and the downstream handler is invoked with the
verified user id attached under `models.UserIDContextKey` on success.  The
code tests for an occurrence of `"Bearer "` anywhere (via
`strings.Replace(h, "Bearer ", "", 1)`), not for a `"Bearer "` prefix. -/
theorem C4_auth_middleware_fail_closed (parse : String → Except JWTError Int)
    (hdr : String) :
    (hdr = "" →
      AuthMiddleware parse hdr = MWOutcome.respond 401 "Authorization header required") ∧
    (¬(hdr = "") → replaceFirst hdr "Bearer " = hdr →
      AuthMiddleware parse hdr = MWOutcome.respond 401 "Bearer token required") ∧
    (¬(hdr = "") → ¬(replaceFirst hdr "Bearer " = hdr) →
      (∀ e, parse (replaceFirst hdr "Bearer ") = Except.error e →
        AuthMiddleware parse hdr = MWOutcome.respond 401 "Invalid or expired token") ∧
      (∀ uid, parse (replaceFirst hdr "Bearer ") = Except.ok uid →
        AuthMiddleware parse hdr = MWOutcome.forward [(UserIDContextKey, uid)])) := by
  refine ⟨fun h => by simp [AuthMiddleware, h], fun h1 h2 => ?_, fun h1 h2 => ⟨?_, ?_⟩⟩
  · unfold AuthMiddleware
    rw [if_neg h1]
    simp [h2]
  · intro e he
    unfold AuthMiddleware
    rw [if_neg h1]
    simp only [if_neg h2, he]
  · intro uid huid
    unfold AuthMiddleware
    rw [if_neg h1]
    simp only [if_neg h2, huid]

theorem C4_auth_middleware_fail_closed_witness :
    AuthMiddleware (fun _ => Except.ok 5) "" =
      MWOutcome.respond 401 "Authorization header required" ∧
    AuthMiddleware (fun _ => Except.ok 5) "tok" =
      MWOutcome.respond 401 "Bearer token required" ∧
    AuthMiddleware (fun _ => Except.ok 5) "Bearer tok" =
      MWOutcome.forward [(UserIDContextKey, 5)] :=
  ⟨(C4_auth_middleware_fail_closed (fun _ => Except.ok 5) "").1 rfl,
   (C4_auth_middleware_fail_closed (fun _ => Except.ok 5) "tok").2.1
     (by decide) (by decide),
   ((C4_auth_middleware_fail_closed (fun _ => Except.ok 5) "Bearer tok").2.2
     (by decide) (by decide)).2 5 rfl⟩

/-- C4 counterexample to the claim as stated: a header that is present and
NOT `"Bearer "`-prefixed, yet the middleware does not respond 401 — it
strips the embedded `"Bearer "` occurrence, the remainder verifies, and the
downstream handler is invoked. -/
theorem C4_counterexample :
    ¬(("HBearer " ++ (mkTokenString hs256 (encClaims ⟨7, 86400, 0⟩)
        (polyMac "k" (signingInput hs256 (encClaims ⟨7, 86400, 0⟩)))).drop 1) = "") ∧
    ¬(List.isPrefixOf "Bearer ".data
        ("HBearer " ++ (mkTokenString hs256 (encClaims ⟨7, 86400, 0⟩)
          (polyMac "k" (signingInput hs256 (encClaims ⟨7, 86400, 0⟩)))).drop 1).data) ∧
    AuthMiddleware (ParseJWT polyMac "k" 0)
        ("HBearer " ++ (mkTokenString hs256 (encClaims ⟨7, 86400, 0⟩)
          (polyMac "k" (signingInput hs256 (encClaims ⟨7, 86400, 0⟩)))).drop 1) =
      MWOutcome.forward [(UserIDContextKey, 7)] := by
  decide

/-- C1: for every allow-listed table, row id and user id, the guard returns
the same `NotOwned` error value when no row with that id exists as when rows
with that id exist but all belong to other users — absence and foreign
ownership are observably indistinguishable to the caller. -/
theorem C1_ownership_absent_eq_foreign (dbA dbF : GuardDB) (table : String)
    (id userID : Int)
    (ht : table = "contacts" ∨ table = "companies")
    (habsent : ∀ r ∈ tableRows dbA table, ¬(r.1 = id))
    (hex : ∃ r ∈ tableRows dbF table, r.1 = id ∧ ¬(r.2 = userID))
    (hforeign : ∀ r ∈ tableRows dbF table, r.1 = id → ¬(r.2 = userID)) :
    ValidateOwnership dbA table id userID = ValidateOwnership dbF table id userID ∧
    ValidateOwnership dbA table id userID =
      Except.error (table ++ " not found or does not belong to the user") := by
  have hA : (tableRows dbA table).any (fun r => r.1 == id && r.2 == userID) = false := by
    rw [List.any_eq_false]
    intro r hr
    simp [habsent r hr]
  have hF : (tableRows dbF table).any (fun r => r.1 == id && r.2 == userID) = false := by
    rw [List.any_eq_false]
    intro r hr
    by_cases h1 : r.1 = id
    · simp [hforeign r hr h1]
    · simp [h1]
  unfold ValidateOwnership
  rw [if_pos ht]
  simp only [hA, hF]
  simp
  rw [if_pos ht]

theorem C1_ownership_absent_eq_foreign_witness :
    ValidateOwnership ⟨[], []⟩ "contacts" 5 1 =
      ValidateOwnership ⟨[(5, 2)], []⟩ "contacts" 5 1 ∧
    ValidateOwnership ⟨[], []⟩ "contacts" 5 1 =
      Except.error "contacts not found or does not belong to the user" :=
  C1_ownership_absent_eq_foreign ⟨[], []⟩ ⟨[(5, 2)], []⟩ "contacts" 5 1
    (by decide) (by decide) (by decide) (by decide)

/-- C2 (code bug): a user whose stored `status` is `inactive` and whose
password matches still logs in with 200, because `LoginUser`'s SELECT omits
the `status` column — the scanned `Status` stays `""` and the
`user.Status == "inactive"` check can never fire. -/
theorem C2_inactive_login_succeeds :
    c2InactiveRow.status = "inactive" ∧
    (fun h p => h == "HASH" && p == "pw") c2InactiveRow.passwordHash "pw" = true ∧
    effectiveStatus (LoginUser ⟨[c2InactiveRow], 2⟩ (fun h p => h == "HASH" && p == "pw")
      polyMac "k" 0 ⟨"alice", "pw"⟩) = some 200 := by
  decide

theorem find?_append_of_none {α : Type} (p : α → Bool) (l1 l2 : List α)
    (h : l1.find? p = none) : (l1 ++ l2).find? p = l2.find? p := by
  induction l1 with
  | nil => simp
  | cons a l ih =>
    rw [List.find?_cons] at h
    cases hp : p a with
    | true => rw [hp] at h; exact absurd h (by simp)
    | false =>
      rw [hp] at h
      simp only [List.cons_append, List.find?_cons, hp]
      exact ih h

/-- C8: with no user row for the email present, two sequential
`find_or_create_by_email` calls return the same user id; the first call
creates exactly one row and the second finds it and changes nothing. -/
theorem C8_find_or_create_idempotent (db : UsersDB) (email fullName t1 t2 : String)
    (habsent : ∀ r ∈ db.rows, ¬(r.email = email)) :
    ∃ u1 u2 : User,
      (FindOrCreateUserByEmail db email fullName t1).2 = Except.ok u1 ∧
      (FindOrCreateUserByEmail (FindOrCreateUserByEmail db email fullName t1).1
        email fullName t2).2 = Except.ok u2 ∧
      u1.id = u2.id ∧
      (FindOrCreateUserByEmail (FindOrCreateUserByEmail db email fullName t1).1
        email fullName t2).1 = (FindOrCreateUserByEmail db email fullName t1).1 ∧
      (FindOrCreateUserByEmail db email fullName t1).1.rows.length =
        db.rows.length + 1 := by
  have hnone : db.rows.find? (fun r => r.email == email) = none := by
    rw [List.find?_eq_none]
    intro r hr
    simp [habsent r hr]
  have h1 : FindOrCreateUserByEmail db email fullName t1 =
      ({ rows := db.rows ++ [provisionedUser db email fullName t1],
         nextId := db.nextId + 1 },
        Except.ok (provisionedUser db email fullName t1)) := by
    unfold FindOrCreateUserByEmail
    rw [hnone]
  have hfind2 : (db.rows ++ [provisionedUser db email fullName t1]).find?
      (fun r => r.email == email) = some (provisionedUser db email fullName t1) := by
    rw [find?_append_of_none _ _ _ hnone]
    simp [List.find?, provisionedUser]
  have h2 : FindOrCreateUserByEmail
      { rows := db.rows ++ [provisionedUser db email fullName t1],
        nextId := db.nextId + 1 } email fullName t2 =
      ({ rows := db.rows ++ [provisionedUser db email fullName t1],
         nextId := db.nextId + 1 },
        Except.ok { provisionedUser db email fullName t1 with passwordHash := "" }) := by
    unfold FindOrCreateUserByEmail
    dsimp only
    rw [hfind2]
  refine ⟨provisionedUser db email fullName t1,
    { provisionedUser db email fullName t1 with passwordHash := "" },
    ?_, ?_, rfl, ?_, ?_⟩
  · rw [h1]
  · rw [h1]
    dsimp only
    rw [h2]
  · rw [h1]
    dsimp only
    rw [h2]
  · rw [h1]
    dsimp only
    simp

theorem C8_find_or_create_idempotent_witness :
    ∃ u1 u2 : User,
      (FindOrCreateUserByEmail ⟨[], 1⟩ "bob@example.com" "Bob Jones" "t1").2 =
        Except.ok u1 ∧
      (FindOrCreateUserByEmail
        (FindOrCreateUserByEmail ⟨[], 1⟩ "bob@example.com" "Bob Jones" "t1").1
        "bob@example.com" "Bob Jones" "t2").2 = Except.ok u2 ∧
      u1.id = u2.id ∧
      (FindOrCreateUserByEmail
        (FindOrCreateUserByEmail ⟨[], 1⟩ "bob@example.com" "Bob Jones" "t1").1
        "bob@example.com" "Bob Jones" "t2").1 =
        (FindOrCreateUserByEmail ⟨[], 1⟩ "bob@example.com" "Bob Jones" "t1").1 ∧
      (FindOrCreateUserByEmail ⟨[], 1⟩ "bob@example.com" "Bob Jones" "t1").1.rows.length =
        ([] : List User).length + 1 :=
  C8_find_or_create_idempotent ⟨[], 1⟩ "bob@example.com" "Bob Jones" "t1" "t2"
    (by decide)

theorem storeLookup_upsert (es : List (Int × String × Int)) (u : Int)
    (tok : String) (exat : Int) :
    storeLookup (storeUpsert es u tok exat) u = some (tok, exat) := by
  induction es with
  | nil => simp [storeUpsert, storeLookup]
  | cons e rest ih =>
    obtain ⟨k, t0, e0⟩ := e
    by_cases hk : k = u
    · simp [storeUpsert, hk, storeLookup]
    · simp [storeUpsert, hk, storeLookup, ih]

/-- C9 (amended): `put` stores the token until the instant
`now + Round(expires_at − now)` (TTL rounded to the nearest second, not
`expires_at` itself): `get` returns the token at any time up to that
instant and fails with `NotFound` strictly after it; `get` on a key with no
entry fails with `NotFound`. -/
theorem C9_token_store_ttl (st : TokenStoreState) (u : Int) (t : String)
    (expNs nowNs getNs : Int) :
    (getNs ≤ nowNs + roundToSecond (expNs - nowNs) →
      GetIDToken (SaveIDToken st u t expNs nowNs) u getNs = Except.ok t) ∧
    (nowNs + roundToSecond (expNs - nowNs) < getNs →
      GetIDToken (SaveIDToken st u t expNs nowNs) u getNs =
        Except.error "token not found: not found") ∧
    (storeLookup st.entries u = none →
      GetIDToken st u getNs = Except.error "token not found: not found") := by
  refine ⟨fun h => ?_, fun h => ?_, fun h => ?_⟩
  · unfold GetIDToken SaveIDToken
    rw [storeLookup_upsert]
    dsimp only
    rw [if_neg (by omega)]
  · unfold GetIDToken SaveIDToken
    rw [storeLookup_upsert]
    dsimp only
    rw [if_pos (by omega)]
  · unfold GetIDToken
    rw [h]

theorem C9_token_store_ttl_witness :
    GetIDToken (SaveIDToken ⟨[]⟩ 1 "tok" 5000000000 0) 1 1000000000 =
      Except.ok "tok" ∧
    GetIDToken (SaveIDToken ⟨[]⟩ 1 "tok" 5000000000 0) 1 6000000000 =
      Except.error "token not found: not found" ∧
    GetIDToken ⟨[]⟩ 1 0 = Except.error "token not found: not found" :=
  ⟨(C9_token_store_ttl ⟨[]⟩ 1 "tok" 5000000000 0 1000000000).1 (by decide),
   (C9_token_store_ttl ⟨[]⟩ 1 "tok" 5000000000 0 6000000000).2.1 (by decide),
   (C9_token_store_ttl ⟨[]⟩ 1 "tok" 5000000000 0 0).2.2 rfl⟩

/-- C9 counterexample to the claim as stated: `put` at time 0 with
`expires_at` 0.4s in the future (TTL rounds to 0s), then `get` at 0.2s —
before `expires_at` — already fails with `NotFound` instead of returning
the token. -/
theorem C9_counterexample :
    (0 : Int) < 400000000 ∧ (200000000 : Int) < 400000000 ∧
    GetIDToken (SaveIDToken ⟨[]⟩ 1 "tok" 400000000 0) 1 200000000 =
      Except.error "token not found: not found" := by
  decide

/-- C6: the callback handler never reads the `state` query parameter — two
callback requests that agree on every parameter except `state` produce
identical write traces, for every environment. -/
theorem C6_callback_independent_of_state (env : OIDCEnv) (q : String → String)
    (s1 s2 : String) :
    OIDCCallbackHandler env ⟨fun k => if k = "state" then s1 else q k⟩ =
      OIDCCallbackHandler env ⟨fun k => if k = "state" then s2 else q k⟩ := by
  have hne : ¬(("code" : String) = "state") := by decide
  unfold OIDCCallbackHandler
  dsimp only
  simp only [if_neg hne]

/-- C7 (code bug): when the ephemeral-token-store write fails after the
session token was issued, the handler (missing a `return`) does continue
and performs the redirect write carrying the session token and serialized
user — but it has already written a 500 error response, so the committed
status the client observes is 500 and no effective redirect occurs, instead
of the login completing with the 302 redirect. -/
theorem C7_save_failure_commits_500 :
    OIDCCallbackHandler c7Env ⟨fun _ => ""⟩ =
      [WriteEvent.respondError 500
        "Failed to save ID Token to token storage: disk full",
       WriteEvent.redirect ("http://localhost:5173/oidc/callback?token=" ++
         ((GenerateJWT polyMac "k" 0 1).toOption.getD "") ++ "&user=bob") 302] ∧
    effectiveStatus (OIDCCallbackHandler c7Env ⟨fun _ => ""⟩) = some 500 ∧
    effectiveRedirectTarget (OIDCCallbackHandler c7Env ⟨fun _ => ""⟩) = none := by
  decide

/-- C10: the middleware stores the user id under the typed key
`models.UserIDContextKey` (`ContextKey("userID")`), while the logout handler
looks up the plain string key `"userID"`; Go interface equality
distinguishes the two, so for every request forwarded by the middleware the
lookup fails and the handler responds 500 "Failed to fetch user ID from
context" without consulting the token store. -/
theorem C10_logout_context_key_mismatch (parse : String → Except JWTError Int)
    (hdr : String) (ctx : ReqContext)
    (h : AuthMiddleware parse hdr = MWOutcome.forward ctx)
    (store : TokenStoreState) (nowNs : Int) (uri base : String)
    (esc : String → String) :
    OIDCLogoutHandler ctx store nowNs uri base esc =
      ([WriteEvent.respondError 500 "Failed to fetch user ID from context"], []) := by
  obtain ⟨uid, hctx⟩ : ∃ uid, ctx = [(UserIDContextKey, uid)] := by
    unfold AuthMiddleware at h
    split at h
    · exact absurd h (by simp)
    · split at h
      · exact absurd h (by simp)
      · split at h
        · exact absurd h (by simp)
        · rename_i userID heq
          exact ⟨userID, (MWOutcome.forward.inj h).symm⟩
  subst hctx
  unfold OIDCLogoutHandler
  have : ctxValue [(UserIDContextKey, uid)] (CtxKey.goString "userID") = none := by
    simp [ctxValue, UserIDContextKey]
  rw [this]

theorem C10_logout_context_key_mismatch_witness :
    OIDCLogoutHandler [(UserIDContextKey, 7)] ⟨[(7, "tok", 100)]⟩ 0
        "https://idp/logout" "https://web" (fun s => s) =
      ([WriteEvent.respondError 500 "Failed to fetch user ID from context"], []) :=
  C10_logout_context_key_mismatch (fun _ => Except.ok 7) "Bearer x"
    [(UserIDContextKey, 7)] (by decide) ⟨[(7, "tok", 100)]⟩ 0
    "https://idp/logout" "https://web" (fun s => s)
